import Mathlib

/-!
Verification of the packet-socket library: a shallow embedding of its
address codec, byte-order conversion, error wrapping, BPF filter
construction, BSD read loop and direction mapping, with theorems checking
the specification's claims against the embedded code.
-/

namespace Packet

/-! ## Error model (packet.go)

Go errors are modelled structurally: a raw `errno`, an
`os.SyscallError(op, errno)`, a `net.OpError` wrapper, and a plain
`errors.New` string. -/

/-- The Linux `EINVAL` errno value used by `unix.EINVAL`. -/
def EINVAL : Nat := 22

/-- `network` constant from packet.go: the network reported in `net.OpError`. -/
def network : String := "packet"

/-- `Addr` from packet.go: wraps a `net.HardwareAddr`, which may be nil
(modelled as `none`) or a byte list. -/
structure Addr where
  hardwareAddr : Option (List Nat)
deriving DecidableEq, Repr

/-- A `net.Addr` value handed to `WriteTo`: either this package's `*Addr`
kind, or some other implementation of the interface. -/
inductive NetAddr where
  | packet (a : Addr)
  | other
deriving DecidableEq, Repr

/-- Structural model of the Go error values the library builds and wraps. -/
inductive GoError where
  | syscallError (op : String) (errno : Nat)
  | errnoErr (e : Nat)
  | opErr (op : String) (net : String) (addr : Option Addr) (err : GoError)
  | errorString (s : String)
deriving DecidableEq, Repr

/-- Number of `net.OpError` wrapping layers on an error value. -/
def opErrDepth : GoError → Nat
  | .opErr _ _ _ e => opErrDepth e + 1
  | _ => 0

/-- `opError` from packet.go: returns nil for a nil input error, otherwise a
`net.OpError` carrying the operation name, the `network` constant and the
local address, wrapping the input error. -/
def opError (op : String) (err : Option GoError) (localAddr : Option Addr) : Option GoError :=
  match err with
  | none => none
  | some e => some (.opErr op network localAddr e)

/-- `Conn` metadata from packet.go: local address, bound interface index and
protocol (already in network byte order). The OS-level handle itself is
external to the embedding. -/
structure Conn where
  addr : Addr
  ifIndex : Int
  protocol : Nat
deriving DecidableEq, Repr

/-- `Conn.opError` from packet.go: the convenience wrapper that passes the
connection's local address to `opError`. -/
def Conn.opError (c : Conn) (op : String) (err : Option GoError) : Option GoError :=
  Packet.opError op err (some c.addr)

/-! ## Address codec (packet_linux.go) -/

/-- Go's builtin `copy(dst, src)`: overwrites the first
`min dst.length src.length` elements of `dst` with those of `src`,
keeping `dst`'s length. -/
def goCopy (dst src : List Nat) : List Nat :=
  src.take dst.length ++ dst.drop (min dst.length src.length)

/-- `unix.SockaddrLinklayer`: its `Addr` field is a fixed `[8]byte` array,
modelled as a list that the codec always keeps at length 8. -/
structure SockaddrLinklayer where
  protocol : Nat
  ifindex : Int
  hatype : Nat
  pkttype : Nat
  halen : Nat
  addr : List Nat
deriving DecidableEq, Repr

/-- Capacity of the `sll_addr` field of `unix.SockaddrLinklayer`
(`len(sa.Addr)` in `toSockaddr`): 8 bytes. -/
def sockaddrAddrLen : Nat := 8

/-- `Conn.toSockaddr` from packet_linux.go: rejects a destination that is not
a `*Addr`, has a nil hardware address, or is longer than the 8-byte
`sll_addr` field, with `os.NewSyscallError(op, unix.EINVAL)`; otherwise packs
the connection's interface index and protocol together with the address
bytes. -/
def Conn.toSockaddr (c : Conn) (op : String) (addr : NetAddr) :
    Except GoError SockaddrLinklayer :=
  match addr with
  | .other => .error (.syscallError op EINVAL)
  | .packet a =>
    match a.hardwareAddr with
    | none => .error (.syscallError op EINVAL)
    | some hw =>
      if sockaddrAddrLen < hw.length then
        .error (.syscallError op EINVAL)
      else
        .ok { protocol := c.protocol, ifindex := c.ifIndex, hatype := 0, pkttype := 0,
              halen := hw.length,
              addr := goCopy (List.replicate sockaddrAddrLen 0) hw }

/-- `fromSockaddr` from packet_linux.go: nil maps to nil; otherwise the
result's hardware address is `sall.Addr[:sall.Halen]`, the valid prefix
indicated by the kernel-reported length. -/
def fromSockaddr : Option SockaddrLinklayer → Option Addr
  | none => none
  | some sall => some ⟨some (sall.addr.take sall.halen)⟩

/-! ## Byte-order conversion (packet_linux.go) -/

/-- The byte-swap `(v<<8)&0xff00 | v>>8` on a 16-bit value, as computed by
`htons` on a Go `uint16`. -/
def swap16 (v : Nat) : Nat :=
  ((v <<< 8) &&& 0xff00) ||| (v >>> 8)

/-- `htons` from packet_linux.go: rejects `i > math.MaxUint16` with an error;
otherwise converts via `v := uint16(i)` (the low 16 bits of the two's
complement representation, i.e. `i % 2^16` with a nonnegative remainder) and
swaps the bytes. Note the source has no check for negative `i`. -/
def htons (i : Int) : Except String Nat :=
  if 65535 < i then
    .error "packet: protocol value out of range"
  else
    .ok (swap16 ((i % 65536).toNat))

/-! ## Linux write path (packet_linux.go `writeTo`)

`socket.Conn.Sendto` is an external collaborator; it is abstracted as an
oracle from the packed sockaddr to an optional error. `unix.Sendto` reports
no byte count, matching the Go signature. -/

/-- `Conn.writeTo` from packet_linux.go: converts the destination address
with `toSockaddr("sendto", addr)`, on failure returns `(0, opError(write,·))`;
then issues the send, on failure returns `(0, opError(write,·))`; on success
returns `len(b)` and nil. -/
def Conn.writeTo (c : Conn) (b : List Nat) (addr : NetAddr)
    (sendtoRes : SockaddrLinklayer → Option GoError) : Nat × Option GoError :=
  match c.toSockaddr "sendto" addr with
  | .error e => (0, c.opError "write" (some e))
  | .ok sa =>
    match sendtoRes sa with
    | some e => (0, c.opError "write" (some e))
    | none => (b.length, none)

/-! ## BPF filter construction (packet_macos.go, golang.org/x/net/bpf)

Only the instruction forms emitted by `baseFilter` and
`baseInterfaceFilter` are embedded: `LoadAbsolute`, `JumpIf` with
`JumpEqual`, and `RetConstant`, together with their assembly into raw
instructions. -/

/-- `bpf.JumpTest` values used by the library. -/
inductive JumpTest where
  | jumpEqual
deriving DecidableEq, Repr

/-- The `bpf.Instruction` forms emitted by the filter compiler. -/
inductive Instruction where
  | loadAbsolute (off : Nat) (size : Nat)
  | jumpIf (cond : JumpTest) (val : Nat) (skipTrue skipFalse : Nat)
  | retConstant (val : Nat)
deriving DecidableEq, Repr

/-- `bpf.RawInstruction`: opcode, jump-true offset, jump-false offset,
constant operand. -/
structure RawInstruction where
  op : Nat
  jt : Nat
  jf : Nat
  k : Nat
deriving DecidableEq, Repr

/-- Assembly of a single instruction, as in golang.org/x/net/bpf:
`LoadAbsolute` becomes `BPF_LD|BPF_ABS|size` (0x30 / 0x28 / 0x20 for sizes
1 / 2 / 4, any other size is an assembly error) with `k` the offset;
`JumpIf JumpEqual` becomes `BPF_JMP|BPF_JEQ|BPF_K` (0x15) with the skip
counts in `jt`/`jf` and the comparison value in `k`; `RetConstant` becomes
`BPF_RET|BPF_K` (0x06). -/
def assembleInstr : Instruction → Option RawInstruction
  | .loadAbsolute off size =>
    match size with
    | 1 => some ⟨0x30, 0, 0, off⟩
    | 2 => some ⟨0x28, 0, 0, off⟩
    | 4 => some ⟨0x20, 0, 0, off⟩
    | _ => none
  | .jumpIf .jumpEqual val st sf => some ⟨0x15, st, sf, val⟩
  | .retConstant val => some ⟨0x06, 0, 0, val⟩

/-- `bpf.Assemble`: assembles each instruction, failing on the first
instruction that cannot be assembled. -/
def assemble : List Instruction → Option (List RawInstruction)
  | [] => some []
  | i :: rest =>
    match assembleInstr i, assemble rest with
    | some r, some rs => some (r :: rs)
    | _, _ => none

/-- `syscall.BpfInsn`, the kernel-facing instruction layout. -/
structure BpfInsn where
  code : Nat
  jt : Nat
  jf : Nat
  k : Nat
deriving DecidableEq, Repr

/-- `assembleBpfInsn` from packet_macos.go: copies each `bpf.RawInstruction`
field by field into a `syscall.BpfInsn`. -/
def assembleBpfInsn (filter : List RawInstruction) : List BpfInsn :=
  filter.map (fun ins => ⟨ins.op, ins.jt, ins.jf, ins.k⟩)

/-- `baseFilter` from packet_macos.go: load the 2-byte EtherType at absolute
offset 12, skip one instruction when it equals the protocol, otherwise
return verdict 0. -/
def baseFilter (proto : Nat) : List Instruction :=
  [ .loadAbsolute 12 2,
    .jumpIf .jumpEqual proto 1 0,
    .retConstant 0 ]

/-- `baseInterfaceFilter` from packet_macos.go: the base filter with an
appended "accept up to mtu bytes" instruction. -/
def baseInterfaceFilter (proto : Nat) (mtu : Nat) : List Instruction :=
  baseFilter proto ++ [.retConstant mtu]

/-- The program built by `conn.SetBPF` in packet_macos.go: the assembled base
filter with the caller's raw instructions appended, converted to
`syscall.BpfInsn` form (`none` if base assembly fails, in which case SetBPF
returns the assembly error). -/
def setBPFProgram (protocol : Nat) (filter : List RawInstruction) : Option (List BpfInsn) :=
  match assemble (baseFilter protocol) with
  | none => none
  | some base => some (assembleBpfInsn (base ++ filter))

/-- Absolute jump targets contributed by the instruction at index `i`: a
`BPF_JMP`-class opcode (low three bits 0x05) targets `i+1+jt` and `i+1+jf`
(an unconditional jump 0x05 targets `i+1+k`); other classes jump nowhere. -/
def instrTargets : Nat × RawInstruction → List Nat
  | (i, ins) =>
    if ins.op = 0x05 then [i + 1 + ins.k]
    else if ins.op &&& 0x07 = 0x05 then [i + 1 + ins.jt, i + 1 + ins.jf]
    else []

/-- All absolute jump targets of a raw program. -/
def jumpTargets (prog : List RawInstruction) : List Nat :=
  prog.enum.flatMap instrTargets

/-- Whether every jump target of a program points strictly within the
program itself. -/
def targetsWithinBase (prog : List RawInstruction) : Bool :=
  (jumpTargets prog).all (fun t => t < prog.length)

/-! ### Classifier semantics

A small fuel-indexed evaluator for the raw programs built above, used to
state what the base filter does to a frame. -/

/-- Big-endian load of `size` bytes at offset `off` of a packet, `none` when
out of range. -/
def loadBytes (pkt : List Nat) (off size : Nat) : Option Nat :=
  if off + size ≤ pkt.length then
    some (((pkt.drop off).take size).foldl (fun acc b => acc * 256 + b) 0)
  else none

/-- Outcome of running a classifier program on a packet. -/
inductive FilterOutcome where
  | verdict (n : Nat)
  | fellThrough (pc : Nat)
  | stuck
deriving DecidableEq, Repr

/-- Run a classifier program: `loadAbsolute` loads into the accumulator (out
of range is `stuck`), `jumpIf jumpEqual` advances the pc by `1 + skipTrue`
or `1 + skipFalse`, `retConstant` returns its verdict; a pc past the end of
the program has fallen through. -/
def execFilter (prog : List Instruction) (pkt : List Nat) :
    Nat → Nat → Nat → FilterOutcome
  | 0, _, _ => .stuck
  | fuel + 1, pc, acc =>
    match prog.get? pc with
    | none => .fellThrough pc
    | some (.loadAbsolute off size) =>
      match loadBytes pkt off size with
      | none => .stuck
      | some v => execFilter prog pkt fuel (pc + 1) v
    | some (.jumpIf .jumpEqual val st sf) =>
      execFilter prog pkt fuel (pc + 1 + (if acc = val then st else sf)) acc
    | some (.retConstant v) => .verdict v

/-! ## BSD driver read path (packet_macos.go) -/

/-- `readTimeout` from packet_macos.go, in nanoseconds: the maximum read
timeout per syscall, 200 ms. -/
def readTimeout : Int := 200000000

/-- The per-iteration timeout computation of `Conn.readFrom` on the BSD
driver: the full slice when no deadline is set (the zero time, modelled as
deadline 0), otherwise the remaining time until the deadline clamped from
above to one slice. Times are nanoseconds since the epoch. -/
def timeoutNs (deadline now : Int) : Int :=
  if deadline = 0 then readTimeout
  else min (deadline - now) readTimeout

/-- Result of one loop iteration's kernel interactions: the `BIOCSRTIMEOUT`
ioctl may fail, then `syscall.Read` may fail or return a byte count. -/
inductive ReadStep where
  | ioctlFail (e : Nat)
  | readFail (e : Nat)
  | readOk (n : Nat)
deriving DecidableEq, Repr

/-- Observable state of the BSD `readFrom` poll loop: an error returned from
an ioctl or read, a frame of `n > 0` bytes breaking the loop, or still
`running` after the given number of iterations. -/
inductive ReadOutcome where
  | ioctlErr (e : Nat)
  | readErr (e : Nat)
  | frame (n : Nat)
  | running
deriving DecidableEq, Repr

/-- The poll loop of `Conn.readFrom` in packet_macos.go. Iteration `k`
computes the timeout from the deadline and the current clock `nowAt k`, arms
`BIOCSRTIMEOUT`, and issues the blocking read (both abstracted by the kernel
oracle `step`, which sees the armed timeout). An ioctl or read error is
returned; a read of zero bytes re-enters the loop; a positive count breaks.
The fuel argument counts iterations observed: `running` means the loop has
not returned within that many iterations. The deadline itself is never
compared against the clock for an exit. -/
def readFromLoop (deadline : Int) (nowAt : Nat → Int) (step : Nat → Int → ReadStep) :
    Nat → Nat → ReadOutcome
  | _, 0 => .running
  | k, fuel + 1 =>
    match step k (timeoutNs deadline (nowAt k)) with
    | .ioctlFail e => .ioctlErr e
    | .readFail e => .readErr e
    | .readOk 0 => readFromLoop deadline nowAt step (k + 1) fuel
    | .readOk (n + 1) => .frame (n + 1)

/-- `bpfLen` from packet_macos.go: the capture-header length prepended to
each inbound frame, 26 (`bpf_xhdr`) when `runtime.GOOS` is `"freebsd"` and
18 (`bpf_hdr`) on every other BSD dialect. -/
def bpfLen (goos : String) : Nat :=
  if goos = "freebsd" then 26 else 18

/-- What `readFrom` hands back to the caller after the poll loop breaks with
`n` bytes read. -/
structure ReadFromResult where
  count : Nat
  data : List Nat
  srcMac : List Nat
deriving DecidableEq, Repr

/-- The post-loop processing of `Conn.readFrom` in packet_macos.go, for a
device buffer `buf`, a read of `n` bytes and a caller buffer of length
`blen`: the source MAC is copied from `buf[bpfl+6:bpfl+12]` and the payload
from `buf[bpfl:bpfl+n]` (so `count` is `copy`'s return, `min blen n`).
`none` models the slice-bounds panics when `bpfl+12` or `bpfl+n` exceed the
buffer. -/
def readFromPost (goos : String) (buf : List Nat) (n blen : Nat) :
    Option ReadFromResult :=
  let bpfl := bpfLen goos
  if bpfl + 12 ≤ buf.length ∧ bpfl + n ≤ buf.length then
    some { count := min blen n,
           data := (buf.drop bpfl).take (min blen n),
           srcMac := (buf.drop (bpfl + 6)).take 6 }
  else none

/-! ## Direction mapping (direction_bsd.go and the OpenBSD variant) -/

/-- Modelled from the spec: the `Direction` type and its three constants are
declared in repository code absent from src (only the BSD drivers consuming
them are present). The spec describes it as "enumerated \x7bIn, Out, InOut\x7d";
numeric values are assigned in that order: 0, 1, 2. The claims settled below
do not depend on this numeric assignment. -/
inductive Direction where
  | dirIn
  | dirOut
  | dirInOut
deriving DecidableEq, Repr

/-- Modelled from the spec: the numeric value of each `Direction` constant,
in the spec's enumeration order. -/
def Direction.toNat : Direction → Nat
  | .dirIn => 0
  | .dirOut => 1
  | .dirInOut => 2

/-- The two BPF ioctl requests used by `setBPFDirection`: `BIOCSSEESENT` on
the generic BSD dialect, `BIOCSDIRFILT` on OpenBSD. -/
inductive BpfIoctl where
  | biocsseesent
  | biocsdirfilt
deriving DecidableEq, Repr

/-- `syscall.BPF_DIRECTION_OUT` from the OpenBSD headers. -/
def BPF_DIRECTION_OUT : Nat := 2

/-- What a `setBPFDirection` implementation decides: an explicit
unsupported-direction error, or which ioctl request to issue with which
device control value. -/
inductive DirResult where
  | unsupported (msg : String)
  | ioctlReq (req : BpfIoctl) (value : Nat)
deriving DecidableEq, Repr

/-- `setBPFDirection` from direction_bsd.go (darwin, dragonfly, freebsd,
netbsd): `DirectionIn` maps to device value 0 and `DirectionInOut` to 1,
issued via `BIOCSSEESENT`; `DirectionOut` returns an unsupported error. -/
def setBPFDirection_bsd (goos : String) (direction : Direction) : DirResult :=
  match direction with
  | .dirIn => .ioctlReq .biocsseesent 0
  | .dirInOut => .ioctlReq .biocsseesent 1
  | .dirOut => .unsupported ("DirectionOut is not supported on " ++ goos)

/-- `setBPFDirection` from the OpenBSD variant: `DirectionIn` returns an
unsupported error; otherwise the first switch picks 1 for `DirectionInOut`
and 0 for `DirectionOut`, the second switch replaces the value with
`BPF_DIRECTION_OUT` when the direction's numeric value is 0, and the result
is issued via `BIOCSDIRFILT`. -/
def setBPFDirection_openbsd (goos : String) (direction : Direction) : DirResult :=
  match direction with
  | .dirIn => .unsupported ("DirectionIn is not supported on " ++ goos)
  | d =>
    let dirfilt : Nat :=
      match d with
      | .dirInOut => 1
      | _ => 0
    let dirfilt : Nat := if d.toNat = 0 then BPF_DIRECTION_OUT else dirfilt
    .ioctlReq .biocsdirfilt dirfilt

/-! ## Helper lemmas -/

/-- Taking back the valid prefix of the packed 8-byte address field recovers
the original bytes when they fit. -/
theorem goCopy_take (hw : List Nat) (h : hw.length ≤ sockaddrAddrLen) :
    (goCopy (List.replicate sockaddrAddrLen 0) hw).take hw.length = hw := by
  simp only [sockaddrAddrLen] at h ⊢
  unfold goCopy
  rw [List.length_replicate, List.take_of_length_le h, List.take_left]

/-! ## Claims -/

/-- Claim C1 (amended): the platform maximum link-address length is the
8-byte `sll_addr` field of `unix.SockaddrLinklayer`, not 20 bytes. For every
hardware address of at most 8 bytes, `toSockaddr` followed by `fromSockaddr`
reproduces exactly the original bytes, and every longer address is rejected
by `toSockaddr` with `EINVAL`. -/
theorem addr_roundtrip_within_sockaddr_capacity (c : Conn) (op : String) (hw : List Nat)
    (h : hw.length ≤ sockaddrAddrLen) :
    (∃ sa, c.toSockaddr op (NetAddr.packet ⟨some hw⟩) = .ok sa
        ∧ fromSockaddr (some sa) = some ⟨some hw⟩)
    ∧ (∀ hw2 : List Nat, sockaddrAddrLen < hw2.length →
        c.toSockaddr op (NetAddr.packet ⟨some hw2⟩) = .error (.syscallError op EINVAL)) := by
  constructor
  · refine ⟨{ protocol := c.protocol, ifindex := c.ifIndex, hatype := 0, pkttype := 0,
              halen := hw.length,
              addr := goCopy (List.replicate sockaddrAddrLen 0) hw }, ?_, ?_⟩
    · simp [Conn.toSockaddr, Nat.not_lt.mpr h]
    · simp [fromSockaddr, goCopy_take hw h]
  · intro hw2 h2
    simp [Conn.toSockaddr, h2]

/-- Claim C1 witness: a concrete 6-byte Ethernet address round-trips, and a
concrete 9-byte address is rejected, by direct application of the round-trip
theorem. -/
theorem addr_roundtrip_witness :
    ({ addr := ⟨some [1]⟩, ifIndex := 1, protocol := 8 } : Conn).toSockaddr "sendto"
        (NetAddr.packet ⟨some (List.replicate 9 7)⟩)
      = .error (.syscallError "sendto" EINVAL) :=
  (addr_roundtrip_within_sockaddr_capacity ⟨⟨some [1]⟩, 1, 8⟩ "sendto" [] (by decide)).2
    (List.replicate 9 7) (by decide)

/-- Claim C1 counterexample: a 9-byte hardware address — well within the
claim's stated 20-byte platform maximum — is rejected by `toSockaddr` with
`EINVAL`, so encode-then-decode cannot reproduce it. -/
theorem toSockaddr_rejects_nine_byte_addr :
    ({ addr := ⟨some [1]⟩, ifIndex := 1, protocol := 8 } : Conn).toSockaddr "sendto"
        (NetAddr.packet ⟨some [1, 2, 3, 4, 5, 6, 7, 8, 9]⟩)
      = .error (.syscallError "sendto" EINVAL)
    ∧ [1, 2, 3, 4, 5, 6, 7, 8, 9].length ≤ 20 :=
  ⟨rfl, by decide⟩

/-- Claim C2: evaluating `htons` at the failing input `-1`. The source only
rejects `i > 65535`, so the negative value `-1` is accepted and converted to
`0xffff` instead of producing the error that both the claim and the
repository's own `Test_htons` "negative" case require; `65536` is rejected
as expected. -/
theorem htons_accepts_negative_input :
    htons (-1) = .ok 65535
    ∧ htons 65536 = .error "packet: protocol value out of range"
    ∧ htons 2048 = .ok 8 ∧ swap16 8 = 2048 :=
  ⟨rfl, rfl, rfl, by decide⟩

/-- Claim C3: evaluating the BSD `readFrom` poll loop at the failing input —
a read deadline already in the past (deadline 1 ns, clock at 2 ns and
increasing) on a device with no pending frames (every read returns zero
bytes, every ioctl succeeds). The loop never returns, for any number of
iterations: `readFrom` has no timeout-class error path at all, and the
computed per-iteration timeout is the negative remaining time `-1` ns, which
is armed into `BIOCSRTIMEOUT` rather than triggering a deadline exit. -/
theorem readFrom_past_deadline_loops_forever :
    (∀ fuel k, readFromLoop 1 (fun i => 2 + Int.ofNat i) (fun _ _ => ReadStep.readOk 0) k fuel
        = ReadOutcome.running)
    ∧ timeoutNs 1 2 = -1 := by
  constructor
  · intro fuel
    induction fuel with
    | zero => intro k; rfl
    | succ m ih => intro k; simpa [readFromLoop] using ih (k + 1)
  · decide

/-- Claim C4: `baseFilter(protocol)` is exactly the three-instruction
program — load 2 bytes at absolute offset 12, skip one instruction when the
loaded value equals the protocol, else return verdict 0 — and running it on
a frame whose EtherType field equals the protocol falls through past the
base program (to pc 3), while a mismatching frame gets verdict 0. -/
theorem baseFilter_program_and_semantics (proto : Nat) (pkt : List Nat) (v : Nat)
    (h : loadBytes pkt 12 2 = some v) :
    baseFilter proto
      = [Instruction.loadAbsolute 12 2,
         Instruction.jumpIf JumpTest.jumpEqual proto 1 0,
         Instruction.retConstant 0]
    ∧ (v = proto → execFilter (baseFilter proto) pkt 9 0 0 = FilterOutcome.fellThrough 3)
    ∧ (v ≠ proto → execFilter (baseFilter proto) pkt 9 0 0 = FilterOutcome.verdict 0) := by
  refine ⟨rfl, ?_, ?_⟩
  · rintro rfl
    simp [execFilter, baseFilter, h]
  · intro hne
    simp [execFilter, baseFilter, h, hne]

/-- Claim C4 witness: the base filter for EtherType 0x0800 falls through on
a 14-byte frame carrying EtherType 0x0800, by direct application of the
program theorem. -/
theorem baseFilter_program_witness :
    execFilter (baseFilter 2048) [0, 0, 0, 0, 0, 0, 0, 0, 0, 0, 0, 0, 8, 0] 9 0 0
      = FilterOutcome.fellThrough 3 :=
  (baseFilter_program_and_semantics 2048 [0, 0, 0, 0, 0, 0, 0, 0, 0, 0, 0, 0, 8, 0] 2048
      (by decide)).2.1 rfl

/-- Claim C5 counterexample: the assembled base filter's skip-true jump
target is index 3 — one past the three-instruction base segment (it is the
fall-through into whatever is appended) — so not every jump target of the
base program points within the base segment. -/
theorem baseFilter_jump_target_leaves_base_segment :
    assemble (baseFilter 2048)
      = some [⟨0x28, 0, 0, 12⟩, ⟨0x15, 1, 0, 2048⟩, ⟨0x06, 0, 0, 0⟩]
    ∧ targetsWithinBase [⟨0x28, 0, 0, 12⟩, ⟨0x15, 1, 0, 2048⟩, ⟨0x06, 0, 0, 0⟩] = false := by
  decide

/-- Claim C5 (amended): composing the assembled base filter with N caller
instructions (as `SetBPF` does) yields a program of the base length plus N
whose base prefix and caller suffix are both unchanged — the caller
instructions follow in their original order, also after the field-by-field
`syscall.BpfInsn` conversion — and every jump target of the base program is
bounded by the base length: the false branch stays strictly within the base
segment and the true branch points exactly to the first instruction after
the base segment. -/
theorem filter_composition_preserves_base_and_user (proto : Nat)
    (filter base : List RawInstruction)
    (h : assemble (baseFilter proto) = some base) :
    setBPFProgram proto filter = some (assembleBpfInsn (base ++ filter))
    ∧ (base ++ filter).length = base.length + filter.length
    ∧ (base ++ filter).take base.length = base
    ∧ (base ++ filter).drop base.length = filter
    ∧ (assembleBpfInsn (base ++ filter)).drop base.length = assembleBpfInsn filter
    ∧ jumpTargets base = [base.length, base.length - 1]
    ∧ (∀ t ∈ jumpTargets base, t ≤ base.length) := by
  have hbase : base = [⟨0x28, 0, 0, 12⟩, ⟨0x15, 1, 0, proto⟩, ⟨0x06, 0, 0, 0⟩] := by
    simp [assemble, assembleInstr, baseFilter] at h
    exact h.symm
  subst hbase
  have hand1 : (0x15 : Nat) &&& 0x07 = 0x05 := by decide
  have hand2 : ¬ ((0x06 : Nat) &&& 0x07 = 0x05) := by decide
  have hand3 : ¬ ((0x28 : Nat) &&& 0x07 = 0x05) := by decide
  have htargets : jumpTargets [⟨0x28, 0, 0, 12⟩, ⟨0x15, 1, 0, proto⟩, ⟨0x06, 0, 0, 0⟩]
      = [3, 2] := by
    simp [jumpTargets, instrTargets, List.enum, List.enumFrom, hand1, hand2, hand3]
  refine ⟨?_,
    by simp only [List.length_append, List.length_cons, List.length_nil],
    List.take_left _ _, List.drop_left _ _, ?_, ?_, ?_⟩
  · simp [setBPFProgram, h]
  · simp [assembleBpfInsn]
  · simpa using htargets
  · intro t ht
    rw [htargets] at ht
    simp at ht
    rcases ht with rfl | rfl <;> simp

/-- Claim C5 witness: the composition theorem applied to the protocol
0x0800 base filter and a one-instruction caller program. -/
theorem filter_composition_witness :
    setBPFProgram 2048 [⟨6, 0, 0, 0⟩]
      = some (assembleBpfInsn
          ([⟨0x28, 0, 0, 12⟩, ⟨0x15, 1, 0, 2048⟩, ⟨0x06, 0, 0, 0⟩] ++ [⟨6, 0, 0, 0⟩])) :=
  (filter_composition_preserves_base_and_user 2048 [⟨6, 0, 0, 0⟩]
      [⟨0x28, 0, 0, 12⟩, ⟨0x15, 1, 0, 2048⟩, ⟨0x06, 0, 0, 0⟩] (by decide)).1

/-- Claim C6: provided the send primitive itself succeeds, `writeTo` fails
with the once-wrapped invalid-argument error (`net.OpError` around
`os.SyscallError("sendto", EINVAL)`) and byte count 0 exactly when the
destination is not of the `*Addr` kind, has a nil hardware address, or
exceeds the 8-byte link-address field; and for every acceptable address the
packed sockaddr carries the full address without truncation (`Halen` is the
address length and taking `Halen` bytes back recovers the address), with the
write then succeeding. -/
theorem writeTo_einval_iff_bad_addr (c : Conn) (b : List Nat) (addr : NetAddr)
    (sendtoRes : SockaddrLinklayer → Option GoError)
    (hsend : ∀ sa, sendtoRes sa = none) :
    (c.writeTo b addr sendtoRes
        = (0, some (GoError.opErr "write" network (some c.addr)
            (GoError.syscallError "sendto" EINVAL)))
      ↔ (addr = NetAddr.other ∨ addr = NetAddr.packet ⟨none⟩
          ∨ ∃ hw, addr = NetAddr.packet ⟨some hw⟩ ∧ sockaddrAddrLen < hw.length))
    ∧ (∀ hw, addr = NetAddr.packet ⟨some hw⟩ → hw.length ≤ sockaddrAddrLen →
        c.toSockaddr "sendto" addr
          = .ok { protocol := c.protocol, ifindex := c.ifIndex, hatype := 0, pkttype := 0,
                  halen := hw.length,
                  addr := goCopy (List.replicate sockaddrAddrLen 0) hw }
        ∧ (goCopy (List.replicate sockaddrAddrLen 0) hw).take hw.length = hw
        ∧ c.writeTo b addr sendtoRes = (b.length, none)) := by
  constructor
  · cases addr with
    | other =>
      simp [Conn.writeTo, Conn.toSockaddr, Conn.opError, opError]
    | packet a =>
      obtain ⟨hwOpt⟩ := a
      cases hwOpt with
      | none =>
        simp [Conn.writeTo, Conn.toSockaddr, Conn.opError, opError]
      | some hw =>
        by_cases hlen : sockaddrAddrLen < hw.length
        · constructor
          · intro _
            exact Or.inr (Or.inr ⟨hw, rfl, hlen⟩)
          · intro _
            simp [Conn.writeTo, Conn.toSockaddr, hlen, Conn.opError, opError]
        · constructor
          · intro hcontra
            exfalso
            simp [Conn.writeTo, Conn.toSockaddr, hlen, hsend] at hcontra
          · rintro (hbad | hbad | ⟨hw2, heq, hlen2⟩)
            · exact absurd hbad (by simp)
            · exact absurd hbad (by simp)
            · obtain rfl : hw2 = hw := by
                simpa using heq.symm
              exact absurd hlen2 hlen
  · rintro hw rfl hle
    refine ⟨?_, goCopy_take hw hle, ?_⟩
    · simp [Conn.toSockaddr, Nat.not_lt.mpr hle]
    · simp [Conn.writeTo, Conn.toSockaddr, Nat.not_lt.mpr hle, hsend]

/-- Claim C6 witness: a destination of the wrong address kind yields byte
count 0 and the wrapped `EINVAL`, by direct application of the
invalid-argument theorem. -/
theorem writeTo_einval_witness :
    ({ addr := ⟨some [1]⟩, ifIndex := 1, protocol := 8 } : Conn).writeTo [5, 6]
        NetAddr.other (fun _ => none)
      = (0, some (GoError.opErr "write" network (some ⟨some [1]⟩)
          (GoError.syscallError "sendto" EINVAL))) :=
  ((writeTo_einval_iff_bad_addr ⟨⟨some [1]⟩, 1, 8⟩ [5, 6] NetAddr.other
      (fun _ => none) (fun _ => rfl)).1).2 (Or.inl rfl)

/-- Claim C7: on both BSD dialects each of the three logical directions
either maps to a device control value issued through the dialect's ioctl or
produces an explicit unsupported error, never a silent no-op: the generic
dialect rejects `DirectionOut` and maps `DirectionIn`/`DirectionInOut` to
`BIOCSSEESENT` values 0/1, while the OpenBSD variant rejects `DirectionIn`
and maps `DirectionOut`/`DirectionInOut` to `BIOCSDIRFILT` values 0/1. -/
theorem setBPFDirection_total_mapping (goos : String) (d : Direction) :
    ((setBPFDirection_bsd goos d
        = DirResult.unsupported ("DirectionOut is not supported on " ++ goos))
      ↔ d = Direction.dirOut)
    ∧ ((setBPFDirection_openbsd goos d
        = DirResult.unsupported ("DirectionIn is not supported on " ++ goos))
      ↔ d = Direction.dirIn)
    ∧ (d ≠ Direction.dirOut →
        setBPFDirection_bsd goos d
          = DirResult.ioctlReq BpfIoctl.biocsseesent (if d = Direction.dirInOut then 1 else 0))
    ∧ (d ≠ Direction.dirIn →
        setBPFDirection_openbsd goos d
          = DirResult.ioctlReq BpfIoctl.biocsdirfilt (if d = Direction.dirInOut then 1 else 0)) := by
  cases d <;>
    simp [setBPFDirection_bsd, setBPFDirection_openbsd, Direction.toNat, BPF_DIRECTION_OUT]

/-- Claim C7 witness: `DirectionIn` on the generic BSD dialect maps to
`BIOCSSEESENT` with device value 0, by direct application of the mapping
theorem. -/
theorem setBPFDirection_mapping_witness :
    setBPFDirection_bsd "darwin" Direction.dirIn
      = DirResult.ioctlReq BpfIoctl.biocsseesent 0 := by
  have h := (setBPFDirection_total_mapping "darwin" Direction.dirIn).2.2.1 (by decide)
  simpa using h

set_option maxRecDepth 8192 in
/-- Claim C8 counterexample: on the generic dialect (header length 18), a
read of 60 bytes (18-byte capture header plus a 42-byte frame) into a
100-byte caller buffer returns byte count 60 — `copy(b, buf[bpfl:bpfl+n])`
counts the full read length, not only the `n - bpfl = 42` payload bytes the
claim describes — while the source MAC is still the 6 bytes at buffer
offsets 24–29. -/
theorem readFrom_count_includes_header_slack :
    (readFromPost "darwin" (List.range 128) 60 100).map ReadFromResult.count = some 60
    ∧ (readFromPost "darwin" (List.range 128) 60 100).map ReadFromResult.srcMac
        = some [24, 25, 26, 27, 28, 29]
    ∧ 60 ≠ 60 - bpfLen "darwin" :=
  ⟨rfl, rfl, by decide⟩

/-- Claim C8 (amended): `bpfLen` takes exactly two fixed values — 26 on the
FreeBSD dialect and 18 on every other BSD dialect — and `readFrom` strips
the header from the front of the device buffer (the returned bytes start at
offset `bpfLen`) and parses the source hardware address from the 6 bytes at
offset 6 relative to the stripped payload start; the returned byte count,
however, is `min (len b) n` with `n` the total read length including the
header, so it covers up to `bpfLen` bytes beyond the frame payload rather
than only the payload. -/
theorem bpfLen_dialects_and_readFrom_layout (goos : String) (buf : List Nat) (n blen : Nat)
    (h12 : bpfLen goos + 12 ≤ buf.length) (hn : bpfLen goos + n ≤ buf.length) :
    bpfLen "freebsd" = 26
    ∧ (goos ≠ "freebsd" → bpfLen goos = 18)
    ∧ readFromPost goos buf n blen
        = some { count := min blen n,
                 data := (buf.drop (bpfLen goos)).take (min blen n),
                 srcMac := ((buf.drop (bpfLen goos)).drop 6).take 6 } := by
  refine ⟨rfl, ?_, ?_⟩
  · intro hg
    simp [bpfLen, hg]
  · simp [readFromPost, h12, hn, List.drop_drop]

/-- Claim C8 witness: the layout theorem applied to a concrete OpenBSD-side
read of 30 bytes into an 8-byte caller buffer over a 64-byte device
buffer. -/
theorem bpfLen_readFrom_layout_witness :
    readFromPost "openbsd" (List.range 64) 30 8
      = some { count := 8,
               data := ((List.range 64).drop 18).take 8,
               srcMac := (((List.range 64).drop 18).drop 6).take 6 } := by
  have h := (bpfLen_dialects_and_readFrom_layout "openbsd" (List.range 64) 30 8
      (by decide) (by decide)).2.2
  simpa using h

/-- Claim C9: for every operation name and local address, a nil underlying
error maps to nil, and a non-nil underlying error is returned as a single
`net.OpError` carrying the operation name, the network name "packet" and
the connection's local address, wrapping the raw error exactly once (the
wrap adds exactly one operation-error layer). -/
theorem opError_wraps_once (c : Conn) (op : String) (e : GoError) :
    c.opError op none = none
    ∧ c.opError op (some e) = some (GoError.opErr op network (some c.addr) e)
    ∧ network = "packet"
    ∧ opErrDepth (GoError.opErr op network (some c.addr) e) = opErrDepth e + 1 :=
  ⟨rfl, rfl, rfl, rfl⟩

/-- Claim C10: whenever the destination address is valid and the underlying
send primitive succeeds, `writeTo` returns exactly the input buffer's
length as the byte count — the count is synthesized, since the send
primitive reports no count of its own. -/
theorem writeTo_returns_input_length (c : Conn) (b hw : List Nat)
    (sendtoRes : SockaddrLinklayer → Option GoError)
    (h : hw.length ≤ sockaddrAddrLen) (hsend : ∀ sa, sendtoRes sa = none) :
    c.writeTo b (NetAddr.packet ⟨some hw⟩) sendtoRes = (b.length, none) := by
  simp [Conn.writeTo, Conn.toSockaddr, Nat.not_lt.mpr h, hsend]

/-- Claim C10 witness: a 3-byte payload to a 6-byte destination reports a
byte count of 3, by direct application of the synthesized-count theorem. -/
theorem writeTo_returns_input_length_witness :
    ({ addr := ⟨some [1]⟩, ifIndex := 1, protocol := 8 } : Conn).writeTo [9, 9, 9]
        (NetAddr.packet ⟨some [1, 2, 3, 4, 5, 6]⟩) (fun _ => none) = (3, none) := by
  have h := writeTo_returns_input_length ⟨⟨some [1]⟩, 1, 8⟩ [9, 9, 9] [1, 2, 3, 4, 5, 6]
      (fun _ => none) (by decide) (fun _ => rfl)
  simpa using h

end Packet
